import Mathlib

/-!
Shallow embedding of the `baseball_analysis.ipynb` pipeline
(baseball swing-probability prediction) and proofs about it.

Tables are modelled as lists of rows; a row is an association list from
column names to cells.  A cell is `Option Val`: `none` models a missing
value (pandas NaN read from CSV).  Numeric values are modelled by `FVal`,
IEEE-style extended rationals (finite / +inf / -inf / NaN), so that the
unguarded division in the `relative_pitch_height` feature can be embedded
faithfully.
-/

/-- IEEE-style numeric value: a finite rational, an infinity, or NaN.
Rationals stand in for floating-point numbers; the pipeline only
subtracts and divides data values, and the inf/NaN structure of those
operations is what the spec talks about. -/
inductive FVal where
  | finite (q : ℚ)
  | inf
  | neginf
  | nan
deriving DecidableEq, Repr

/-- IEEE-style subtraction on `FVal`. -/
def FVal.sub : FVal → FVal → FVal
  | .finite a, .finite b => .finite (a - b)
  | .finite _, .inf => .neginf
  | .finite _, .neginf => .inf
  | .inf, .finite _ => .inf
  | .neginf, .finite _ => .neginf
  | .inf, .neginf => .inf
  | .neginf, .inf => .neginf
  | .inf, .inf => .nan
  | .neginf, .neginf => .nan
  | .nan, _ => .nan
  | _, .nan => .nan

/-- IEEE-style division on `FVal`: the divisor `0` (numpy's +0.0) gives
`+inf` for a positive numerator, `-inf` for a negative one and `NaN`
for `0/0`; division is never guarded in the source. -/
def FVal.div : FVal → FVal → FVal
  | .finite a, .finite b =>
      if b = 0 then
        if a = 0 then .nan else if 0 < a then .inf else .neginf
      else .finite (a / b)
  | .finite _, .inf => .finite 0
  | .finite _, .neginf => .finite 0
  | .inf, .finite b => if 0 ≤ b then .inf else .neginf
  | .neginf, .finite b => if 0 ≤ b then .neginf else .inf
  | .inf, .inf => .nan
  | .inf, .neginf => .nan
  | .neginf, .inf => .nan
  | .neginf, .neginf => .nan
  | .nan, _ => .nan
  | _, .nan => .nan

/-- A cell value: numeric or string (pandas object column). -/
inductive Val where
  | num (v : FVal)
  | str (s : String)
deriving DecidableEq, Repr

/-- A row: association list from column name to cell; `none` is a
missing value. -/
abbrev Row := List (String × Option Val)

/-- An indexed table: pandas DataFrame rows carrying their index labels. -/
abbrev Table := List (Nat × Row)

/-- Column lookup in a row (first matching column). -/
def getCell : Row → String → Option Val
  | [], _ => none
  | p :: r, c => if p.1 = c then p.2 else getCell r c

/-- pandas `isna` on a cell: a missing cell or a NaN float is NA. -/
def isNA : Option Val → Bool
  | none => true
  | some (.num .nan) => true
  | some _ => false

/-- A row is complete when no cell is NA (the rows `dropna` keeps). -/
def rowComplete (r : Row) : Bool := r.all (fun p => !isNA p.2)

/-- The column names of a row, in order (`df.columns`). -/
def rowKeys (r : Row) : List String := r.map Prod.fst

/-- Column assignment `df[c] = v` on one row: overwrite the column if
present (column names are unique in a DataFrame), else append it
(pandas adds new columns at the end). -/
def setCell : Row → String → Option Val → Row
  | [], c, v => [(c, v)]
  | p :: r, c, v => if p.1 = c then (p.1, v) :: r else p :: setCell r c v

/-- Model of `df.dropna(axis=0)`: keep the complete rows, indices untouched. -/
def dropna (t : Table) : Table := t.filter (fun p => rowComplete p.2)

/-- Attach a RangeIndex starting at `n` to a list of rows (pandas gives
every freshly built frame the index `0..n-1`; `enumRows 0` models it). -/
def enumRows : Nat → List Row → Table
  | _, [] => []
  | n, r :: rs => (n, r) :: enumRows (n + 1) rs

/-- Model of `pd.concat([a, b], ignore_index=True)`: stack the rows and renumber
the index `0..n-1`. -/
def concatIgnoreIndex (a b : List Row) : Table := enumRows 0 (a ++ b)

/-- Model of `data_train = pd.concat([data_season1, data_season2],
ignore_index=True)` followed by `data_train.dropna(axis=0)`. -/
def dataTrainClean (s1 s2 : List Row) : Table :=
  dropna (concatIgnoreIndex s1 s2)

/-- The swing events list from the notebook. -/
def swing_events : List String :=
  ["foul", "hit_into_play", "swinging_strike", "foul_tip",
   "foul_bunt", "swinging_strike_blocked", "missed_bunt", "bunt_foul_tip",
   "foul_pitchout"]

/-- The labelling lambda `1 if x in swing_events else 0` applied to a
`description` cell; python membership is `False` on non-strings. -/
def swingLabel : Option Val → ℚ
  | some (.str s) => if s ∈ swing_events then 1 else 0
  | _ => 0

/-- Model of `data_train['swing'] = data_train['description'].apply(lambda x: 1
if x in swing_events else 0)`. -/
def addSwingColumn (t : Table) : Table :=
  t.map (fun p =>
    (p.1, setCell p.2 "swing"
      (some (.num (.finite (swingLabel (getCell p.2 "description")))))))

/-- Read a cell as a float: a missing value in a numeric pandas column
is NaN. -/
def cellFVal : Option Val → FVal
  | some (.num v) => v
  | _ => .nan

/-- The expression `(plate_z - sz_bot) / (sz_top - sz_bot)` for one row. -/
def relPitchHeight (r : Row) : FVal :=
  FVal.div
    (FVal.sub (cellFVal (getCell r "plate_z")) (cellFVal (getCell r "sz_bot")))
    (FVal.sub (cellFVal (getCell r "sz_top")) (cellFVal (getCell r "sz_bot")))

/-- Model of `df['relative_pitch_height'] = (df['plate_z'] - df['sz_bot']) /
(df['sz_top'] - df['sz_bot'])`, applied identically to `data_train`
and to `data_season3_clean` in the source. -/
def addRelativePitchHeight (t : Table) : Table :=
  t.map (fun p =>
    (p.1, setCell p.2 "relative_pitch_height" (some (.num (relPitchHeight p.2)))))

/-- Look up a row by index label in a table (first match). -/
def lookupIdx : Table → Nat → Option Row
  | [], _ => none
  | p :: t, i => if p.1 = i then some p.2 else lookupIdx t i

/-- Model of `DataFrame.update` on one row of `self`: for each column the row
already has, overwrite with `other`'s value at the same index label
when that value exists and is non-NA; `update` never adds columns. -/
def updateRow (other : Table) (i : Nat) (r : Row) : Row :=
  match lookupIdx other i with
  | none => r
  | some r2 =>
      r.map (fun p => if isNA (getCell r2 p.1) then p else (p.1, getCell r2 p.1))

/-- Model of `self.update(other)`: index-aligned, column-intersecting, non-NA
overwrite; `self`'s index, row order and column set are preserved. -/
def dfUpdate (self other : Table) : Table :=
  self.map (fun p => (p.1, updateRow other p.1 p.2))

/-- The default score cell: `data_season3['SwingProbability'] = 0.5`. -/
def half : Option Val := some (.num (.finite (1/2)))

/-- The season-3 table after `pd.read_csv('year3.csv')` (RangeIndex) and
`data_season3['SwingProbability'] = 0.5`. -/
def data_season3 (raw : List Row) : Table :=
  (enumRows 0 raw).map (fun p => (p.1, setCell p.2 "SwingProbability" half))

/-- Model of `data_season3_clean = data_season3.dropna(axis=0).copy()`, then
`data_season3_clean['relative_pitch_height'] = ...`, then
`data_season3_clean['SwingProbability'] =
best_model.predict_proba(X_test)[:, 1]`.  The fitted model composed with
the one-hot encoding is abstracted as `prob : Row → ℚ`, applied to the
feature-engineered clean row. -/
def data_season3_clean (prob : Row → ℚ) (raw : List Row) : Table :=
  (addRelativePitchHeight (dropna (data_season3 raw))).map
    (fun p => (p.1, setCell p.2 "SwingProbability" (some (.num (.finite (prob p.2))))))

/-- The scoring-season half of the notebook ending in
`data_season3.update(data_season3_clean)`; the result is what
`data_season3.to_csv('validation.csv', index=False)` writes. -/
def season3Pipeline (prob : Row → ℚ) (raw : List Row) : Table :=
  dfUpdate (data_season3 raw) (data_season3_clean prob raw)

/-- The hyperparameter grid first assigned in the notebook:
`{'n_estimators': [50, 100, 200, 300], 'max_depth': [10, 15, 20, 25, 30]}`.
Pairs are `(max_depth, n_estimators)`, the sorted-key order in which
sklearn's ParameterGrid enumerates candidates. -/
def param_grid_full : List Nat × List Nat := ([10, 15, 20, 25, 30], [50, 100, 200, 300])

/-- The grid the very next source line rebinds `param_grid` to:
`param_grid = {'n_estimators': [300], 'max_depth': [25]}`.  This is the
value that reaches `GridSearchCV`. -/
def param_grid : List Nat × List Nat := ([25], [300])

/-- ParameterGrid enumeration: cartesian product of the sorted-key value
lists, last key varying fastest. -/
def gridCandidates (g : List Nat × List Nat) : List (Nat × Nat) :=
  g.1.flatMap (fun md => g.2.map (fun ne => (md, ne)))

/-- First-maximum scan: sklearn's `best_index_` keeps the earliest
candidate on ties and replaces only on a strictly larger mean score. -/
def argmaxFirst (auc : Nat × Nat → ℚ) : List (Nat × Nat) → Nat × Nat → Nat × Nat
  | [], best => best
  | c :: cs, best => argmaxFirst auc cs (if auc best < auc c then c else best)

/-- Model of `GridSearchCV(model, param_grid, cv=5, scoring='roc_auc')` selection:
`best_estimator_`'s hyperparameters are the candidate with the highest
mean cross-validated ROC-AUC, earliest first on ties.  The per-candidate
mean 5-fold CV AUC is abstracted as `auc : Nat × Nat → ℚ`. -/
def bestParams (auc : Nat × Nat → ℚ) (g : List Nat × List Nat) : Nat × Nat :=
  match gridCandidates g with
  | [] => (0, 0)
  | c :: cs => argmaxFirst auc cs c

/-- Number of cross-validation folds passed to GridSearchCV. -/
def cvFolds : Nat := 5

/-- Model of `train_test_split(X_train, y_train, test_size=0.2, random_state=21)`,
with the library's seeded shuffler abstracted as
`perm : Nat → Nat → List Nat` (seed and length to shuffled index order).
sklearn sets aside `ceil(0.2 * n)` test samples from the front of the
shuffled indices and uses the rest for training. -/
def trainTestSplit (perm : Nat → Nat → List Nat) (seed : Nat)
    (rows : List α) : List α × List α :=
  let n := rows.length
  let nTest := (n + 4) / 5
  let idx := perm seed n
  ((idx.drop nTest).filterMap (fun i => rows[i]?),
   (idx.take nTest).filterMap (fun i => rows[i]?))

/-- The fixed seed of the notebook's split. -/
def random_state : Nat := 21

/-- An encoded design matrix: named columns, rows of rationals. -/
structure Frame where
  cols : List String
  rows : List (List ℚ)
deriving DecidableEq, Repr

/-- Model of `X_test.reindex(columns=X_train.columns, fill_value=0)`: each output
row lists, in the order of `newCols`, the row's value at that column when
the frame has it and `0` otherwise. -/
def reindexColumns (newCols : List String) (f : Frame) : Frame :=
  { cols := newCols
    rows := f.rows.map (fun r =>
      newCols.map (fun c =>
        match f.cols.findIdx? (fun c2 => c2 == c) with
        | some j => r.getD j 0
        | none => 0)) }

/-- Artifacts of one notebook run: the printed VIF table and every
downstream product named by the spec (selected hyperparameters,
validation metrics, the written scoring-season table). -/
structure RunResult where
  vif : List (String × ℚ)
  best : Nat × Nat
  rocauc : ℚ
  accuracy : ℚ
  validationCsv : Table
deriving Repr

/-- The notebook, cell order preserved, with every library computation
abstracted as a parameter: `vifFn` is `calculate_vifs` (statsmodels
variance-inflation factors), `enc` is `pd.get_dummies` on the feature
columns, `perm` the seeded shuffler inside `train_test_split`, `auc`
the mean 5-fold CV ROC-AUC of a hyperparameter pair, `evalAuc`/`evalAcc`
the validation metrics of the fitted best model, and `prob` the
probability the best model assigns to a clean season-3 row.
`vif_data = calculate_vifs(X_train); print(vif_data)` is computed and
printed but read by nothing downstream. -/
def notebookRun (vifFn : Frame → List (String × ℚ)) (enc : Table → Frame)
    (perm : Nat → Nat → List Nat) (auc evalAuc evalAcc : Nat × Nat → ℚ)
    (prob : Row → ℚ) (s1 s2 s3 : List Row) : RunResult :=
  let data_train := addRelativePitchHeight (addSwingColumn (dataTrainClean s1 s2))
  let Xfull := enc data_train
  let split := trainTestSplit perm random_state Xfull.rows
  let X_train : Frame := { cols := Xfull.cols, rows := split.1 }
  let vif_data := vifFn X_train
  let best := bestParams auc param_grid
  { vif := vif_data
    best := best
    rocauc := evalAuc best
    accuracy := evalAcc best
    validationCsv := season3Pipeline prob s3 }

/-- A concrete mean-CV-AUC assignment: candidate `(max_depth 10,
n_estimators 50)` scores 1, every other pair scores 0. -/
def aucSample : Nat × Nat → ℚ := fun c => if c = (10, 50) then 1 else 0

/-- Proof-side normal form of the clean working copy: index rows from
`n`, apply `f` to every row, drop incomplete rows, then apply `g` and
`h2` to the survivors. -/
def cleanedPipe (f g h2 : Row → Row) (n : Nat) (rs : List Row) : Table :=
  ((dropna ((enumRows n rs).map (fun p => (p.1, f p.2)))).map
    (fun p => (p.1, g p.2))).map (fun p => (p.1, h2 p.2))

/-- A season-3 row right after the `SwingProbability = 0.5` assignment. -/
def e0Row (r : Row) : Row := setCell r "SwingProbability" half

/-- A clean season-3 row after the `relative_pitch_height` assignment. -/
def engineeredRow (r : Row) : Row :=
  setCell (e0Row r) "relative_pitch_height" (some (.num (relPitchHeight (e0Row r))))

/-- A clean season-3 row after its model probability is written into
`SwingProbability`. -/
def scoredRow (prob : Row → ℚ) (r : Row) : Row :=
  setCell (engineeredRow r) "SwingProbability"
    (some (.num (.finite (prob (engineeredRow r)))))

/-- A concrete season row: plate_z 3, sz_bot 1, sz_top 2, so the
relative pitch height is 2 — above 1 and unclamped. -/
def c3row : Row :=
  [("plate_z", some (.num (.finite 3))), ("sz_bot", some (.num (.finite 1))),
   ("sz_top", some (.num (.finite 2)))]

/-- Concrete training design matrix for the C4 witness. -/
def c4train : Frame := { cols := ["a", "b"], rows := [[1, 2]] }

/-- Concrete scoring design matrix for the C4 witness: column "a" is
missing, column "z" is new. -/
def c4test : Frame := { cols := ["b", "z"], rows := [[5, 7]] }

/-- The all-zero probability function used by witnesses. -/
def probZero : Row → ℚ := fun _ => 0

/-- Concrete two-row season-3 input for the C5 witness: row 0 complete,
row 1 has a missing `balls` cell. -/
def c5raw : List Row :=
  [[("balls", some (.num (.finite 1)))], [("balls", none)]]

/-! ### Helper lemmas about rows and cells -/

theorem getCell_setCell_self (r : Row) (c : String) (v : Option Val) :
    getCell (setCell r c v) c = v := by
  induction r with
  | nil => simp [setCell, getCell]
  | cons p r ih =>
    by_cases h : p.1 = c
    · simp [setCell, getCell, h]
    · simp [setCell, getCell, h, ih]

theorem getCell_setCell_ne (r : Row) (c c2 : String) (v : Option Val) (h : c2 ≠ c) :
    getCell (setCell r c v) c2 = getCell r c2 := by
  have hcc : ¬ c = c2 := fun hh => h hh.symm
  induction r with
  | nil => simp [setCell, getCell, hcc]
  | cons p r ih =>
    by_cases hp : p.1 = c
    · simp [setCell, getCell, hp, hcc]
    · by_cases hp2 : p.1 = c2 <;> simp [setCell, getCell, hp, hp2, h, ih]

theorem mem_rowKeys_cons {c : String} {p : String × Option Val} {r : Row} :
    c ∈ rowKeys (p :: r) ↔ c = p.1 ∨ c ∈ rowKeys r := by
  simp [rowKeys]

theorem rowKeys_setCell_mem (r : Row) (c : String) (v : Option Val)
    (h : c ∈ rowKeys r) : rowKeys (setCell r c v) = rowKeys r := by
  induction r with
  | nil => simp [rowKeys] at h
  | cons p r ih =>
    by_cases hp : p.1 = c
    · simp [setCell, rowKeys, hp]
    · rcases mem_rowKeys_cons.mp h with h1 | h1
      · exact absurd h1.symm hp
      · have h2 := ih h1
        simp [setCell, rowKeys, hp] at h2 ⊢
        exact h2

theorem rowKeys_setCell_not_mem (r : Row) (c : String) (v : Option Val)
    (h : c ∉ rowKeys r) : rowKeys (setCell r c v) = rowKeys r ++ [c] := by
  induction r with
  | nil => simp [setCell, rowKeys]
  | cons p r ih =>
    have hp : ¬ p.1 = c := fun hh => h (mem_rowKeys_cons.mpr (Or.inl hh.symm))
    have hm : c ∉ rowKeys r := fun hh => h (mem_rowKeys_cons.mpr (Or.inr hh))
    have h2 := ih hm
    simp [setCell, rowKeys, hp] at h2 ⊢
    exact h2

theorem getCell_eq_none_of_not_mem (r : Row) (c : String) (h : c ∉ rowKeys r) :
    getCell r c = none := by
  induction r with
  | nil => rfl
  | cons p r ih =>
    have hp : ¬ p.1 = c := fun hh => h (mem_rowKeys_cons.mpr (Or.inl hh.symm))
    have hm : c ∉ rowKeys r := fun hh => h (mem_rowKeys_cons.mpr (Or.inr hh))
    simp [getCell, hp, ih hm]

theorem rowComplete_setCell_not_mem (r : Row) (c : String) (v : Option Val)
    (h : c ∉ rowKeys r) : rowComplete (setCell r c v) = (rowComplete r && !isNA v) := by
  induction r with
  | nil => simp [setCell, rowComplete]
  | cons p r ih =>
    have hp : ¬ p.1 = c := fun hh => h (mem_rowKeys_cons.mpr (Or.inl hh.symm))
    have hm : c ∉ rowKeys r := fun hh => h (mem_rowKeys_cons.mpr (Or.inr hh))
    have h2 := ih hm
    simp [setCell, rowComplete, hp] at h2 ⊢
    rw [h2]
    cases isNA p.2 <;> cases isNA v <;> simp

theorem enumRows_getElem? (rs : List Row) : ∀ (n k : Nat),
    (enumRows n rs)[k]? = rs[k]?.map (fun r => (n + k, r)) := by
  induction rs with
  | nil => intro n k; simp [enumRows]
  | cons r rs ih =>
    intro n k
    cases k with
    | zero => simp [enumRows]
    | succ k =>
      have harith : n + 1 + k = n + (k + 1) := by omega
      simp [enumRows, ih (n + 1) k, harith]

theorem enumRows_length (rs : List Row) : ∀ n, (enumRows n rs).length = rs.length := by
  induction rs with
  | nil => intro n; rfl
  | cons r rs ih => intro n; simp [enumRows, ih]

theorem mem_enumRows {i : Nat} {r : Row} {rs : List Row} : ∀ {n : Nat},
    (i, r) ∈ enumRows n rs ↔ ∃ k, i = n + k ∧ rs[k]? = some r := by
  induction rs with
  | nil => intro n; simp [enumRows]
  | cons hd tl ih =>
    intro n
    simp only [enumRows, List.mem_cons, ih, Prod.mk.injEq]
    constructor
    · rintro (⟨rfl, rfl⟩ | ⟨k, rfl, hk⟩)
      · exact ⟨0, by simp⟩
      · exact ⟨k + 1, by omega, by simpa using hk⟩
    · rintro ⟨k, rfl, hk⟩
      cases k with
      | zero =>
        left
        simp at hk
        exact ⟨by omega, hk.symm⟩
      | succ k =>
        right
        exact ⟨k, by omega, by simpa using hk⟩

theorem mem_enumRows_zero {i : Nat} {r : Row} {rs : List Row} :
    (i, r) ∈ enumRows 0 rs ↔ rs[i]? = some r := by
  simp [mem_enumRows]

theorem isNA_getCell_of_complete {r : Row} (h : rowComplete r = true) (c : String)
    (hc : c ∈ rowKeys r) : isNA (getCell r c) = false := by
  induction r with
  | nil => simp [rowKeys] at hc
  | cons p r ih =>
    simp only [rowComplete, List.all_cons, Bool.and_eq_true, Bool.not_eq_true'] at h
    by_cases hp : p.1 = c
    · simpa [getCell, hp] using h.1
    · rcases mem_rowKeys_cons.mp hc with h1 | h1
      · exact absurd h1.symm hp
      · simpa [getCell, hp] using ih h.2 h1

theorem updateRow_of_lookup_none {other : Table} {i : Nat} (r : Row)
    (h : lookupIdx other i = none) : updateRow other i r = r := by
  simp [updateRow, h]

theorem rowKeys_updateRow (other : Table) (i : Nat) (r : Row) :
    rowKeys (updateRow other i r) = rowKeys r := by
  cases h : lookupIdx other i with
  | none => simp [updateRow, h]
  | some r2 =>
    simp only [updateRow, h]
    induction r with
    | nil => rfl
    | cons p r ih =>
      by_cases hna : isNA (getCell r2 p.1) <;>
        simp only [List.map_cons, rowKeys, hna, if_true, if_false] at ih ⊢ <;>
        simp [ih]

theorem getCell_updateRow_some (other : Table) (i : Nat) (r2 : Row)
    (h : lookupIdx other i = some r2) (r : Row) (c : String) (hc : c ∈ rowKeys r) :
    getCell (updateRow other i r) c =
      if isNA (getCell r2 c) then getCell r c else getCell r2 c := by
  simp only [updateRow, h]
  induction r with
  | nil => simp [rowKeys] at hc
  | cons p r ih =>
    by_cases hp : p.1 = c
    · subst hp
      by_cases hna : isNA (getCell r2 p.1) <;> simp [getCell, hna]
    · rcases mem_rowKeys_cons.mp hc with h1 | h1
      · exact absurd h1.symm hp
      · by_cases hna : isNA (getCell r2 p.1) <;> simp [getCell, hp, hna, ih h1]

/-- The table `data_season3_clean` is a `cleanedPipe`. -/
theorem data_season3_clean_eq (prob : Row → ℚ) (raw : List Row) :
    data_season3_clean prob raw =
      cleanedPipe (fun r => setCell r "SwingProbability" half)
        (fun r => setCell r "relative_pitch_height" (some (.num (relPitchHeight r))))
        (fun r => setCell r "SwingProbability" (some (.num (.finite (prob r)))))
        0 raw := rfl

theorem cleanedPipe_cons (f g h2 : Row → Row) (n : Nat) (r : Row) (rs : List Row) :
    cleanedPipe f g h2 n (r :: rs) =
      if rowComplete (f r) then
        (n, h2 (g (f r))) :: cleanedPipe f g h2 (n + 1) rs
      else cleanedPipe f g h2 (n + 1) rs := by
  by_cases hc : rowComplete (f r) <;>
    simp [cleanedPipe, enumRows, dropna, List.filter_cons, hc]

theorem lookupIdx_cleanedPipe_lt (f g h2 : Row → Row) (rs : List Row) :
    ∀ n m, m < n → lookupIdx (cleanedPipe f g h2 n rs) m = none := by
  induction rs with
  | nil => intro n m _; rfl
  | cons r rs ih =>
    intro n m hm
    rw [cleanedPipe_cons]
    by_cases hc : rowComplete (f r)
    · simp only [hc, if_true, lookupIdx, (show ¬ n = m by omega), if_false]
      exact ih (n + 1) m (by omega)
    · simp only [hc, if_false]
      exact ih (n + 1) m (by omega)

theorem lookupIdx_cleanedPipe (f g h2 : Row → Row) (rs : List Row) :
    ∀ n k r, rs[k]? = some r →
      lookupIdx (cleanedPipe f g h2 n rs) (n + k) =
        if rowComplete (f r) then some (h2 (g (f r))) else none := by
  induction rs with
  | nil => intro n k r h; simp at h
  | cons hd tl ih =>
    intro n k r h
    rw [cleanedPipe_cons]
    cases k with
    | zero =>
      simp only [List.getElem?_cons_zero, Option.some.injEq] at h
      subst h
      by_cases hc : rowComplete (f hd) = true
      · rw [if_pos hc, if_pos hc]
        simp [lookupIdx]
      · rw [if_neg hc, if_neg hc]
        exact lookupIdx_cleanedPipe_lt f g h2 tl (n + 1) (n + 0) (by omega)
    | succ k =>
      have htl : tl[k]? = some r := by simpa using h
      have harith : n + 1 + k = n + (k + 1) := by omega
      by_cases hc : rowComplete (f hd) = true
      · rw [if_pos hc]
        simp only [lookupIdx, (show ¬ n = n + (k + 1) by omega), if_false]
        have hres := ih (n + 1) k r htl
        rwa [harith] at hres
      · rw [if_neg hc]
        have hres := ih (n + 1) k r htl
        rwa [harith] at hres

theorem mem_cleanedPipe {f g h2 : Row → Row} {rs : List Row} {i : Nat} {r : Row} :
    ∀ {n : Nat}, (i, r) ∈ cleanedPipe f g h2 n rs ↔
      ∃ k r0, i = n + k ∧ rs[k]? = some r0 ∧ rowComplete (f r0) = true ∧
        r = h2 (g (f r0)) := by
  induction rs with
  | nil =>
    intro n
    simp [cleanedPipe, dropna, enumRows]
  | cons hd tl ih =>
    intro n
    rw [cleanedPipe_cons]
    by_cases hc : rowComplete (f hd) = true
    · rw [if_pos hc]
      simp only [List.mem_cons, ih, Prod.mk.injEq]
      constructor
      · rintro (⟨rfl, rfl⟩ | ⟨k, r0, hik, hk, hcr, hr⟩)
        · exact ⟨0, hd, by omega, by simp, hc, rfl⟩
        · exact ⟨k + 1, r0, by omega, by simpa using hk, hcr, hr⟩
      · rintro ⟨k, r0, hik, hk, hcr, hr⟩
        cases k with
        | zero =>
          simp only [List.getElem?_cons_zero, Option.some.injEq] at hk
          subst hk
          exact Or.inl ⟨by omega, hr⟩
        | succ k =>
          exact Or.inr ⟨k, r0, by omega, by simpa using hk, hcr, hr⟩
    · rw [if_neg hc]
      rw [ih]
      constructor
      · rintro ⟨k, r0, hik, hk, hcr, hr⟩
        exact ⟨k + 1, r0, by omega, by simpa using hk, hcr, hr⟩
      · rintro ⟨k, r0, hik, hk, hcr, hr⟩
        cases k with
        | zero =>
          simp only [List.getElem?_cons_zero, Option.some.injEq] at hk
          subst hk
          exact absurd hcr hc
        | succ k =>
          exact ⟨k, r0, by omega, by simpa using hk, hcr, hr⟩

theorem mem_rowKeys_setCell_self (r : Row) (c : String) (v : Option Val) :
    c ∈ rowKeys (setCell r c v) := by
  by_cases h : c ∈ rowKeys r
  · rw [rowKeys_setCell_mem r c v h]; exact h
  · rw [rowKeys_setCell_not_mem r c v h]; simp

theorem mem_rowKeys_setCell_ne (r : Row) (c c2 : String) (v : Option Val)
    (h : c ≠ c2) : c ∈ rowKeys (setCell r c2 v) ↔ c ∈ rowKeys r := by
  by_cases hm : c2 ∈ rowKeys r
  · rw [rowKeys_setCell_mem r c2 v hm]
  · rw [rowKeys_setCell_not_mem r c2 v hm]
    simp [h]

theorem isNA_half : isNA half = false := rfl

theorem rowComplete_e0Row (r : Row) (h : "SwingProbability" ∉ rowKeys r) :
    rowComplete (e0Row r) = rowComplete r := by
  rw [e0Row, rowComplete_setCell_not_mem r _ _ h, isNA_half]
  simp

theorem season3Pipeline_length (prob : Row → ℚ) (raw : List Row) :
    (season3Pipeline prob raw).length = raw.length := by
  simp [season3Pipeline, dfUpdate, data_season3, enumRows_length]

theorem season3Pipeline_getElem (prob : Row → ℚ) (raw : List Row) (i : Nat) (r : Row)
    (hr : raw[i]? = some r) :
    (season3Pipeline prob raw)[i]? =
      some (i, updateRow (data_season3_clean prob raw) i (e0Row r)) := by
  simp [season3Pipeline, dfUpdate, data_season3, enumRows_getElem?, hr, e0Row]

theorem lookupIdx_data_season3_clean (prob : Row → ℚ) (raw : List Row) (i : Nat)
    (r : Row) (hr : raw[i]? = some r) :
    lookupIdx (data_season3_clean prob raw) i =
      if rowComplete (e0Row r) then some (scoredRow prob r) else none := by
  have hres := lookupIdx_cleanedPipe (fun r => setCell r "SwingProbability" half)
      (fun r => setCell r "relative_pitch_height" (some (.num (relPitchHeight r))))
      (fun r => setCell r "SwingProbability" (some (.num (.finite (prob r)))))
      raw 0 i r hr
  rw [data_season3_clean_eq]
  simpa [e0Row, engineeredRow, scoredRow] using hres

theorem season3_row_incomplete (prob : Row → ℚ) (raw : List Row) (i : Nat) (r : Row)
    (hr : raw[i]? = some r) (hc : rowComplete (e0Row r) = false) :
    (season3Pipeline prob raw)[i]? = some (i, e0Row r) := by
  rw [season3Pipeline_getElem prob raw i r hr]
  have hnone : lookupIdx (data_season3_clean prob raw) i = none := by
    rw [lookupIdx_data_season3_clean prob raw i r hr, hc]
    simp
  rw [updateRow_of_lookup_none _ hnone]

theorem season3_row_complete_prob (prob : Row → ℚ) (raw : List Row) (i : Nat) (r : Row)
    (hr : raw[i]? = some r) (hc : rowComplete (e0Row r) = true) :
    ∃ out, (season3Pipeline prob raw)[i]? = some (i, out) ∧
      getCell out "SwingProbability" =
        some (.num (.finite (prob (engineeredRow r)))) := by
  rw [season3Pipeline_getElem prob raw i r hr]
  have hsome : lookupIdx (data_season3_clean prob raw) i = some (scoredRow prob r) := by
    rw [lookupIdx_data_season3_clean prob raw i r hr, hc]
    simp
  refine ⟨_, rfl, ?_⟩
  have hmem : "SwingProbability" ∈ rowKeys (e0Row r) := mem_rowKeys_setCell_self r _ half
  rw [getCell_updateRow_some _ _ _ hsome _ _ hmem]
  have hget : getCell (scoredRow prob r) "SwingProbability" =
      some (.num (.finite (prob (engineeredRow r)))) := getCell_setCell_self _ _ _
  rw [hget]
  simp [isNA]

theorem season3_row_frame (prob : Row → ℚ) (raw : List Row) (i : Nat) (r : Row)
    (hr : raw[i]? = some r)
    (hsp : "SwingProbability" ∉ rowKeys r)
    (hrph : "relative_pitch_height" ∉ rowKeys r) :
    ∃ out, (season3Pipeline prob raw)[i]? = some (i, out) ∧
      (∀ c, c ≠ "SwingProbability" → getCell out c = getCell r c) ∧
      rowKeys out = rowKeys r ++ ["SwingProbability"] := by
  have hkeys0 : rowKeys (e0Row r) = rowKeys r ++ ["SwingProbability"] :=
    rowKeys_setCell_not_mem r _ half hsp
  by_cases hc : rowComplete (e0Row r) = true
  · rw [season3Pipeline_getElem prob raw i r hr]
    have hsome : lookupIdx (data_season3_clean prob raw) i =
        some (scoredRow prob r) := by
      rw [lookupIdx_data_season3_clean prob raw i r hr, hc]
      simp
    refine ⟨_, rfl, ?_, ?_⟩
    · intro c hne
      by_cases hcm : c ∈ rowKeys (e0Row r)
      · have hcr : c ∈ rowKeys r := by
          have := (mem_rowKeys_setCell_ne r c "SwingProbability" half hne).mp
          exact this hcm
        have hcrph : c ≠ "relative_pitch_height" := by
          intro hh
          exact hrph (hh ▸ hcr)
        have hgetE0 : getCell (e0Row r) c = getCell r c :=
          getCell_setCell_ne r "SwingProbability" c half hne
        have hgetSc : getCell (scoredRow prob r) c = getCell r c := by
          rw [scoredRow, getCell_setCell_ne _ "SwingProbability" c _ hne,
            engineeredRow, getCell_setCell_ne _ "relative_pitch_height" c _ hcrph,
            hgetE0]
        rw [getCell_updateRow_some _ _ _ hsome _ _ hcm, hgetSc, hgetE0]
        simp
      · have hcr : c ∉ rowKeys r := by
          intro hh
          exact hcm ((mem_rowKeys_setCell_ne r c "SwingProbability" half hne).mpr hh)
        have hout : getCell (updateRow (data_season3_clean prob raw) i (e0Row r)) c
            = none := by
          apply getCell_eq_none_of_not_mem
          rw [rowKeys_updateRow]
          exact hcm
        rw [hout, getCell_eq_none_of_not_mem r c hcr]
    · rw [rowKeys_updateRow, hkeys0]
  · have hcf : rowComplete (e0Row r) = false := by
      cases hcc : rowComplete (e0Row r)
      · rfl
      · exact absurd hcc hc
    rw [season3_row_incomplete prob raw i r hr hcf]
    refine ⟨_, rfl, ?_, hkeys0⟩
    intro c hne
    exact getCell_setCell_ne r "SwingProbability" c half hne

theorem argmaxFirst_ge_acc (auc : Nat × Nat → ℚ) (l : List (Nat × Nat)) :
    ∀ b, auc b ≤ auc (argmaxFirst auc l b) := by
  induction l with
  | nil => intro b; simp [argmaxFirst]
  | cons c cs ih =>
    intro b
    simp only [argmaxFirst]
    by_cases h : auc b < auc c
    · rw [if_pos h]
      exact (le_of_lt h).trans (ih c)
    · rw [if_neg h]
      exact ih b

theorem argmaxFirst_ge_mem (auc : Nat × Nat → ℚ) (l : List (Nat × Nat)) :
    ∀ b c, c ∈ l → auc c ≤ auc (argmaxFirst auc l b) := by
  induction l with
  | nil => intro b c hc; simp at hc
  | cons d cs ih =>
    intro b c hc
    rcases List.mem_cons.mp hc with rfl | hmem
    · simp only [argmaxFirst]
      by_cases h : auc b < auc c
      · rw [if_pos h]
        exact argmaxFirst_ge_acc auc cs c
      · rw [if_neg h]
        exact (le_of_not_lt h).trans (argmaxFirst_ge_acc auc cs b)
    · simp only [argmaxFirst]
      by_cases h : auc b < auc d
      · rw [if_pos h]
        exact ih d c hmem
      · rw [if_neg h]
        exact ih b c hmem

theorem bestParams_ge (auc : Nat × Nat → ℚ) (g : List Nat × List Nat)
    (c : Nat × Nat) (hc : c ∈ gridCandidates g) :
    auc c ≤ auc (bestParams auc g) := by
  unfold bestParams
  cases hg : gridCandidates g with
  | nil => rw [hg] at hc; simp at hc
  | cons d cs =>
    rw [hg] at hc
    rcases List.mem_cons.mp hc with rfl | hmem
    · exact argmaxFirst_ge_acc auc cs c
    · exact argmaxFirst_ge_mem auc cs d c hmem

/-- C1 (counterexample): the code's `GridSearchCV` receives the rebound
single-candidate grid, so its selection is `(max_depth 25,
n_estimators 300)` no matter what the 20 candidates of the overwritten
grid would have scored; under the concrete CV-AUC assignment `aucSample`
the candidate `(10, 50)` of the full grid strictly beats the selected
pair, refuting the claim that the selected pair's mean CV AUC dominates
every candidate of the 20-element grid. -/
theorem c1_counterexample :
    ¬ (∀ c ∈ gridCandidates param_grid_full,
        aucSample c ≤ aucSample (bestParams aucSample param_grid)) := by
  decide

/-- C1 (amended): the grid search runs over the rebound grid
`{'n_estimators': [300], 'max_depth': [25]}` — the 20-element grid is
overwritten on the next source line before `GridSearchCV` is built — so
the selected hyperparameters are always `(max_depth 25, n_estimators
300)`, and that pair trivially has the highest mean cross-validated
ROC-AUC among the (one-element) grid actually searched. -/
theorem c1_amended_selection (auc : Nat × Nat → ℚ) :
    bestParams auc param_grid = (25, 300) ∧
    ∀ c ∈ gridCandidates param_grid, auc c ≤ auc (bestParams auc param_grid) := by
  constructor
  · rfl
  · intro c hc
    exact bestParams_ge auc param_grid c hc

/-- Witness for C1 (amended) at the concrete AUC assignment `aucSample`
and the candidate `(25, 300)` of the effective grid. -/
theorem c1_amended_selection_witness :
    bestParams aucSample param_grid = (25, 300) ∧
    aucSample (25, 300) ≤ aucSample (bestParams aucSample param_grid) :=
  ⟨(c1_amended_selection aucSample).1,
   (c1_amended_selection aucSample).2 (25, 300) (by decide)⟩

/-- C2: on every row of the cleaned training table, the derived `swing`
label is 1 exactly when the row's `description` string is one of the
nine listed tokens (case-sensitive membership) and 0 otherwise; in
particular description "ball" gives swing 0 and "foul" gives swing 1. -/
theorem c2_swing_label (s1 s2 : List Row) (i ix : Nat) (r : Row)
    (hr : (dataTrainClean s1 s2)[i]? = some (ix, r)) :
    ∃ r2, (addSwingColumn (dataTrainClean s1 s2))[i]? = some (ix, r2) ∧
      getCell r2 "swing" =
        some (.num (.finite (swingLabel (getCell r "description")))) ∧
      (∀ s, getCell r "description" = some (.str s) →
        (getCell r2 "swing" = some (.num (.finite 1)) ↔
          s ∈ ["foul", "hit_into_play", "swinging_strike", "foul_tip",
               "foul_bunt", "swinging_strike_blocked", "missed_bunt",
               "bunt_foul_tip", "foul_pitchout"])) ∧
      (∀ s, getCell r "description" = some (.str s) → s ∉ swing_events →
        getCell r2 "swing" = some (.num (.finite 0))) ∧
      (getCell r "description" = some (.str "ball") →
        getCell r2 "swing" = some (.num (.finite 0))) ∧
      (getCell r "description" = some (.str "foul") →
        getCell r2 "swing" = some (.num (.finite 1))) := by
  refine ⟨setCell r "swing"
    (some (.num (.finite (swingLabel (getCell r "description"))))), ?_, ?_, ?_, ?_, ?_, ?_⟩
  · simp [addSwingColumn, hr]
  · exact getCell_setCell_self r _ _
  · intro s hs
    rw [getCell_setCell_self r _ _, hs]
    show some (Val.num (.finite (swingLabel (some (.str s))))) =
        some (Val.num (.finite 1)) ↔ _
    by_cases hmem : s ∈ swing_events
    · simp only [swingLabel, if_pos hmem]
      simpa [swing_events] using hmem
    · simp only [swingLabel, if_neg hmem]
      constructor
      · intro hcon
        simp at hcon
      · intro hcon
        exact absurd (by simpa [swing_events] using hcon) hmem
  · intro s hs hmem
    rw [getCell_setCell_self r _ _, hs]
    simp [swingLabel, hmem]
  · intro hs
    rw [getCell_setCell_self r _ _, hs]
    simp [swingLabel, swing_events]
  · intro hs
    rw [getCell_setCell_self r _ _, hs]
    simp [swingLabel, swing_events]

/-- Witness for C2 on a one-row table whose description is "ball". -/
theorem c2_swing_label_witness :
    getCell [("description", some (.str "ball"))] "description"
        = some (.str "ball") ∧
    ∃ r2, (addSwingColumn (dataTrainClean [[("description", some (.str "ball"))]] []))[0]?
        = some (0, r2) ∧
      getCell r2 "swing" = some (.num (.finite (swingLabel
        (getCell [("description", some (.str "ball"))] "description")))) ∧
      (∀ s, getCell [("description", some (.str "ball"))] "description"
          = some (.str s) →
        (getCell r2 "swing" = some (.num (.finite 1)) ↔
          s ∈ ["foul", "hit_into_play", "swinging_strike", "foul_tip",
               "foul_bunt", "swinging_strike_blocked", "missed_bunt",
               "bunt_foul_tip", "foul_pitchout"])) ∧
      (∀ s, getCell [("description", some (.str "ball"))] "description"
          = some (.str s) → s ∉ swing_events →
        getCell r2 "swing" = some (.num (.finite 0))) ∧
      (getCell [("description", some (.str "ball"))] "description"
          = some (.str "ball") →
        getCell r2 "swing" = some (.num (.finite 0))) ∧
      (getCell [("description", some (.str "ball"))] "description"
          = some (.str "foul") →
        getCell r2 "swing" = some (.num (.finite 1))) :=
  ⟨rfl, c2_swing_label [[("description", some (.str "ball"))]] [] 0 0
    [("description", some (.str "ball"))] (by decide)⟩

/-- C3: on every table the feature is computed on (the cleaned training
table and the cleaned season-3 table both go through
`addRelativePitchHeight`), the new `relative_pitch_height` cell holds
exactly `(plate_z - sz_bot) / (sz_top - sz_bot)` — the unclamped value
when `sz_top ≠ sz_bot`, and `inf`/`-inf`/`NaN` when `sz_top = sz_bot`
— and no row is dropped or aborted by the division. -/
theorem c3_relative_pitch_height (t : Table) (i ix : Nat) (r : Row)
    (hr : t[i]? = some (ix, r)) :
    (addRelativePitchHeight t).length = t.length ∧
    ∃ r2, (addRelativePitchHeight t)[i]? = some (ix, r2) ∧
      getCell r2 "relative_pitch_height" = some (.num (relPitchHeight r)) ∧
      (∀ pz sb st : ℚ,
        cellFVal (getCell r "plate_z") = .finite pz →
        cellFVal (getCell r "sz_bot") = .finite sb →
        cellFVal (getCell r "sz_top") = .finite st →
        (st ≠ sb → relPitchHeight r = .finite ((pz - sb) / (st - sb))) ∧
        (st = sb → relPitchHeight r = .inf ∨ relPitchHeight r = .neginf ∨
          relPitchHeight r = .nan)) := by
  refine ⟨by simp [addRelativePitchHeight], ?_⟩
  refine ⟨setCell r "relative_pitch_height" (some (.num (relPitchHeight r))),
    ?_, getCell_setCell_self r _ _, ?_⟩
  · simp [addRelativePitchHeight, hr]
  · intro pz sb st hpz hsb hst
    constructor
    · intro hne
      have hd : st - sb ≠ 0 := fun hh => hne (by linarith [sub_eq_zero.mp hh])
      simp [relPitchHeight, hpz, hsb, hst, FVal.sub, FVal.div, hd]
    · intro heq
      have hsub : st - sb = 0 := by rw [heq, sub_self]
      have hrel : relPitchHeight r = FVal.div (.finite (pz - sb)) (.finite 0) := by
        simp [relPitchHeight, hpz, hsb, hst, FVal.sub, hsub]
      have hdiv : FVal.div (.finite (pz - sb)) (.finite 0) =
          if pz - sb = 0 then FVal.nan
          else if 0 < pz - sb then FVal.inf else FVal.neginf := by
        simp [FVal.div]
      rw [hrel, hdiv]
      rcases lt_trichotomy (pz - sb) 0 with hlt | heq0 | hgt
      · right; left
        rw [if_neg (by linarith), if_neg (by linarith)]
      · right; right
        rw [if_pos heq0]
      · left
        rw [if_neg (by linarith), if_pos hgt]

/-- Witness for C3 on the one-row table `[(0, c3row)]`. -/
theorem c3_relative_pitch_height_witness :
    (addRelativePitchHeight [(0, c3row)]).length = [(0, c3row)].length ∧
    ∃ r2, (addRelativePitchHeight [(0, c3row)])[0]? = some (0, r2) ∧
      getCell r2 "relative_pitch_height" = some (.num (relPitchHeight c3row)) ∧
      (∀ pz sb st : ℚ,
        cellFVal (getCell c3row "plate_z") = .finite pz →
        cellFVal (getCell c3row "sz_bot") = .finite sb →
        cellFVal (getCell c3row "sz_top") = .finite st →
        (st ≠ sb → relPitchHeight c3row = .finite ((pz - sb) / (st - sb))) ∧
        (st = sb → relPitchHeight c3row = .inf ∨ relPitchHeight c3row = .neginf ∨
          relPitchHeight c3row = .nan)) :=
  c3_relative_pitch_height [(0, c3row)] 0 0 c3row rfl

/-- C6: the cleaned training table (concat of seasons 1 and 2 with a
fresh RangeIndex, then `dropna`) contains no NA cell; a concatenated
row is kept exactly when it is complete; and every kept row is the
unmodified input row at its index (nothing is imputed). -/
theorem c6_training_clean (s1 s2 : List Row) :
    (∀ p ∈ dataTrainClean s1 s2, rowComplete p.2 = true) ∧
    (∀ i r, (s1 ++ s2)[i]? = some r →
      ((i, r) ∈ dataTrainClean s1 s2 ↔ rowComplete r = true)) ∧
    (∀ p ∈ dataTrainClean s1 s2, (s1 ++ s2)[p.1]? = some p.2) := by
  refine ⟨?_, ?_, ?_⟩
  · intro p hp
    exact (List.mem_filter.mp hp).2
  · intro i r _
    constructor
    · intro hmem
      exact (List.mem_filter.mp hmem).2
    · intro hcomp
      refine List.mem_filter.mpr ⟨?_, hcomp⟩
      exact mem_enumRows_zero.mpr (by assumption)
  · intro p hp
    obtain ⟨i, r⟩ := p
    exact mem_enumRows_zero.mp (List.mem_filter.mp hp).1

/-- Witness for C6: season 1 has one complete row, season 2 one row
with a missing cell; the complete row at index 0 is kept, and the
incomplete row at index 1 is dropped. -/
theorem c6_training_clean_witness :
    ((0, [("balls", some (Val.num (.finite 1)))]) ∈
      dataTrainClean [[("balls", some (.num (.finite 1)))]] [[("balls", none)]] ↔
      rowComplete [("balls", some (Val.num (.finite 1)))] = true) ∧
    ((1, [("balls", (none : Option Val))]) ∈
      dataTrainClean [[("balls", some (.num (.finite 1)))]] [[("balls", none)]] ↔
      rowComplete [("balls", (none : Option Val))] = true) :=
  ⟨(c6_training_clean [[("balls", some (.num (.finite 1)))]]
      [[("balls", none)]]).2.1 0 [("balls", some (.num (.finite 1)))] (by decide),
   (c6_training_clean [[("balls", some (.num (.finite 1)))]]
      [[("balls", none)]]).2.1 1 [("balls", none)] (by decide)⟩

theorem findIdx?_eq_none_of_not_mem (l : List String) (c : String) (h : c ∉ l) :
    l.findIdx? (fun c2 => c2 == c) = none := by
  rw [List.findIdx?_eq_none_iff]
  intro x hx
  simp only [beq_eq_false_iff_ne, ne_eq]
  intro hxc
  exact h (hxc ▸ hx)

/-- C4: reindexing any encoded scoring frame against the training
columns yields exactly the training column list in training order; the
row count is unchanged, every row has exactly as many entries as the
training frame has columns (so `X_test.shape[1] == X_train.shape[1]`),
any training column missing from the scoring frame is filled with 0,
and no column outside the training list survives. -/
theorem c4_reindex_alignment (train test : Frame) (_hne : test.rows ≠ []) :
    (reindexColumns train.cols test).cols = train.cols ∧
    (reindexColumns train.cols test).rows.length = test.rows.length ∧
    (∀ r ∈ (reindexColumns train.cols test).rows, r.length = train.cols.length) ∧
    (∀ (j : Nat) (c : String), train.cols[j]? = some c → c ∉ test.cols →
      ∀ r ∈ (reindexColumns train.cols test).rows, r[j]? = some (0 : ℚ)) ∧
    (∀ c ∈ (reindexColumns train.cols test).cols, c ∈ train.cols) := by
  refine ⟨rfl, by simp [reindexColumns], ?_, ?_, ?_⟩
  · intro r hr
    simp only [reindexColumns, List.mem_map] at hr
    obtain ⟨r0, _, rfl⟩ := hr
    simp
  · intro j c hj hc r hr
    simp only [reindexColumns, List.mem_map] at hr
    obtain ⟨r0, _, rfl⟩ := hr
    rw [List.getElem?_map, hj]
    simp [findIdx?_eq_none_of_not_mem test.cols c hc]
  · intro c hc
    simpa [reindexColumns] using hc

/-- Witness for C4 at the concrete frames. -/
theorem c4_reindex_alignment_witness :
    c4test.rows ≠ [] ∧
    ((reindexColumns c4train.cols c4test).cols = c4train.cols ∧
     (reindexColumns c4train.cols c4test).rows.length = c4test.rows.length ∧
     (∀ r ∈ (reindexColumns c4train.cols c4test).rows,
        r.length = c4train.cols.length) ∧
     (∀ (j : Nat) (c : String), c4train.cols[j]? = some c → c ∉ c4test.cols →
        ∀ r ∈ (reindexColumns c4train.cols c4test).rows, r[j]? = some (0 : ℚ)) ∧
     (∀ c ∈ (reindexColumns c4train.cols c4test).cols, c ∈ c4train.cols)) :=
  ⟨by decide, c4_reindex_alignment c4train c4test (by decide)⟩

/-- C5: the written scoring output has exactly one row per raw season-3
row; a row with a missing value keeps the default `SwingProbability`
of exactly 0.5, and a complete row carries the model-derived
probability, which lies in [0, 1]. -/
theorem c5_scoring_output (prob : Row → ℚ) (raw : List Row)
    (hp : ∀ r, 0 ≤ prob r ∧ prob r ≤ 1)
    (hsp : ∀ r ∈ raw, "SwingProbability" ∉ rowKeys r) :
    (season3Pipeline prob raw).length = raw.length ∧
    ∀ (i : Nat) (r : Row), raw[i]? = some r →
      ∃ out, (season3Pipeline prob raw)[i]? = some (i, out) ∧
        (rowComplete r = false →
          getCell out "SwingProbability" = some (.num (.finite (1/2)))) ∧
        (rowComplete r = true →
          ∃ q : ℚ, getCell out "SwingProbability" = some (.num (.finite q)) ∧
            0 ≤ q ∧ q ≤ 1) := by
  refine ⟨season3Pipeline_length prob raw, ?_⟩
  intro i r hr
  have hspr : "SwingProbability" ∉ rowKeys r := hsp r (List.getElem?_mem hr)
  have hcomp : rowComplete (e0Row r) = rowComplete r := rowComplete_e0Row r hspr
  by_cases hc : rowComplete r = true
  · obtain ⟨out, hout, hcell⟩ :=
      season3_row_complete_prob prob raw i r hr (by rw [hcomp, hc])
    refine ⟨out, hout, ?_, ?_⟩
    · intro hf
      rw [hf] at hc
      exact Bool.noConfusion hc
    · intro _
      exact ⟨prob (engineeredRow r), hcell, (hp _).1, (hp _).2⟩
  · have hcf : rowComplete r = false := by
      cases hcc : rowComplete r
      · rfl
      · exact absurd hcc hc
    have h1 := season3_row_incomplete prob raw i r hr (by rw [hcomp, hcf])
    refine ⟨e0Row r, h1, ?_, ?_⟩
    · intro _
      exact getCell_setCell_self r _ _
    · intro ht
      exact absurd ht hc

/-- Witness for C5 at `probZero` and `c5raw`. -/
theorem c5_scoring_output_witness :
    (season3Pipeline probZero c5raw).length = c5raw.length ∧
    ∀ (i : Nat) (r : Row), c5raw[i]? = some r →
      ∃ out, (season3Pipeline probZero c5raw)[i]? = some (i, out) ∧
        (rowComplete r = false →
          getCell out "SwingProbability" = some (.num (.finite (1/2)))) ∧
        (rowComplete r = true →
          ∃ q : ℚ, getCell out "SwingProbability" = some (.num (.finite q)) ∧
            0 ≤ q ∧ q ≤ 1) :=
  c5_scoring_output probZero c5raw
    (fun _ => ⟨le_refl 0, by norm_num [probZero]⟩) (by decide)

/-- C9: the merge back into the season-3 table touches only the
`SwingProbability` column — every other column of every output row is
byte-identical to the raw input — and adds no engineered column: the
output column list is exactly the raw columns plus `SwingProbability`,
and `relative_pitch_height` is absent. -/
theorem c9_merge_frame (prob : Row → ℚ) (raw : List Row) (i : Nat) (r : Row)
    (hr : raw[i]? = some r)
    (hsp : "SwingProbability" ∉ rowKeys r)
    (hrph : "relative_pitch_height" ∉ rowKeys r) :
    ∃ out, (season3Pipeline prob raw)[i]? = some (i, out) ∧
      (∀ c, c ≠ "SwingProbability" → getCell out c = getCell r c) ∧
      rowKeys out = rowKeys r ++ ["SwingProbability"] ∧
      "relative_pitch_height" ∉ rowKeys out := by
  obtain ⟨out, h1, h2, h3⟩ := season3_row_frame prob raw i r hr hsp hrph
  refine ⟨out, h1, h2, h3, ?_⟩
  rw [h3]
  intro hmem
  rcases List.mem_append.mp hmem with hm | hm
  · exact hrph hm
  · simp at hm

/-- Witness for C9 at `probZero`, `c5raw`, row 0. -/
theorem c9_merge_frame_witness :
    ∃ out, (season3Pipeline probZero c5raw)[0]?
        = some (0, out) ∧
      (∀ c, c ≠ "SwingProbability" →
        getCell out c = getCell [("balls", some (.num (.finite 1)))] c) ∧
      rowKeys out = rowKeys [("balls", some (Val.num (.finite 1)))]
        ++ ["SwingProbability"] ∧
      "relative_pitch_height" ∉ rowKeys out :=
  c9_merge_frame probZero c5raw 0 [("balls", some (.num (.finite 1)))]
    (by decide) (by decide) (by decide)

/-- C10: the clean working copy keeps the original season-3 row indices
(each clean row's index identifies the raw row it was built from, and
the clean index set is a subset of the full table's index set), and the
index-aligned merge writes the probability computed from raw row `i`
into output row `i`. -/
theorem c10_clean_index_alignment (prob : Row → ℚ) (raw : List Row) :
    (∀ (i : Nat) (r : Row), (i, r) ∈ data_season3_clean prob raw →
      ∃ r0, raw[i]? = some r0 ∧ rowComplete (e0Row r0) = true ∧
        r = scoredRow prob r0 ∧ i ∈ (data_season3 raw).map Prod.fst) ∧
    (∀ (i : Nat) (r0 : Row), raw[i]? = some r0 → rowComplete (e0Row r0) = true →
      ∃ out, (season3Pipeline prob raw)[i]? = some (i, out) ∧
        getCell out "SwingProbability" =
          some (.num (.finite (prob (engineeredRow r0))))) := by
  constructor
  · intro i r hmem
    rw [data_season3_clean_eq] at hmem
    obtain ⟨k, r0, hik, hk, hcr, hre⟩ := mem_cleanedPipe.mp hmem
    have hik0 : i = k := by omega
    subst hik0
    refine ⟨r0, hk, hcr, hre, ?_⟩
    have hd3 : (data_season3 raw)[i]? = some (i, e0Row r0) := by
      simp [data_season3, enumRows_getElem?, hk, e0Row]
    exact List.mem_map.mpr ⟨(i, e0Row r0), List.getElem?_mem hd3, rfl⟩
  · intro i r0 hr hc
    exact season3_row_complete_prob prob raw i r0 hr hc

/-- Witness for C10 at `probZero`, `c5raw`, row 0 (the complete row). -/
theorem c10_clean_index_alignment_witness :
    ∃ out, (season3Pipeline probZero c5raw)[0]? = some (0, out) ∧
      getCell out "SwingProbability" =
        some (.num (.finite (probZero
          (engineeredRow [("balls", some (.num (.finite 1)))])))) :=
  (c10_clean_index_alignment probZero c5raw).2 0
    [("balls", some (.num (.finite 1)))] (by decide) (by decide)

/-- C7: the VIF computation is purely diagnostic.  Two runs of the
notebook that differ only in what the VIF computation returns (any two
functions, including one returning nothing, modelling a skipped check)
produce identical downstream artifacts: the selected hyperparameters,
both validation metrics, and the written scoring-season table. -/
theorem c7_vif_purely_diagnostic (v1 v2 : Frame → List (String × ℚ))
    (enc : Table → Frame) (perm : Nat → Nat → List Nat)
    (auc evalAuc evalAcc : Nat × Nat → ℚ) (prob : Row → ℚ)
    (s1 s2 s3 : List Row) :
    (notebookRun v1 enc perm auc evalAuc evalAcc prob s1 s2 s3).best =
      (notebookRun v2 enc perm auc evalAuc evalAcc prob s1 s2 s3).best ∧
    (notebookRun v1 enc perm auc evalAuc evalAcc prob s1 s2 s3).rocauc =
      (notebookRun v2 enc perm auc evalAuc evalAcc prob s1 s2 s3).rocauc ∧
    (notebookRun v1 enc perm auc evalAuc evalAcc prob s1 s2 s3).accuracy =
      (notebookRun v2 enc perm auc evalAuc evalAcc prob s1 s2 s3).accuracy ∧
    (notebookRun v1 enc perm auc evalAuc evalAcc prob s1 s2 s3).validationCsv =
      (notebookRun v2 enc perm auc evalAuc evalAcc prob s1 s2 s3).validationCsv :=
  ⟨rfl, rfl, rfl, rfl⟩

theorem trainTestSplit_def {α : Type _} (perm : Nat → Nat → List Nat) (seed : Nat)
    (rows : List α) :
    trainTestSplit perm seed rows =
      (((perm seed rows.length).drop ((rows.length + 4) / 5)).filterMap
          (fun i => rows[i]?),
       ((perm seed rows.length).take ((rows.length + 4) / 5)).filterMap
          (fun i => rows[i]?)) := rfl

theorem filterMap_getElem?_length {α : Type _} (rows : List α) (idx : List Nat)
    (h : ∀ i ∈ idx, i < rows.length) :
    (idx.filterMap (fun i => rows[i]?)).length = idx.length := by
  induction idx with
  | nil => rfl
  | cons i is ih =>
    have hi : i < rows.length := h i (by simp)
    simp [List.filterMap_cons, List.getElem?_eq_getElem hi,
      ih (fun j hj => h j (by simp [hj]))]

theorem filterMap_getElem?_range {α : Type _} (rows : List α) :
    (List.range rows.length).filterMap (fun i => rows[i]?) = rows := by
  induction rows with
  | nil => rfl
  | cons a l ih =>
    rw [List.length_cons, List.range_succ_eq_map]
    simp only [List.filterMap_cons, List.getElem?_cons_zero, List.filterMap_map]
    have hfun : ((fun i => (a :: l)[i]?) ∘ Nat.succ) = (fun i : Nat => l[i]?) := by
      funext i
      simp [Function.comp]
    rw [hfun, ih]

/-- C8: the train/validation split is a pure function of the data and
the fixed seed (`random_state = 21`), so two runs on the same input
produce identical splits; the validation side holds `ceil(0.2·n)` rows,
the train side the remaining rows, and together they are exactly the
input rows (a permutation — the same rows end up on the two sides). -/
theorem c8_split_deterministic {α : Type} (perm : Nat → Nat → List Nat)
    (rows : List α)
    (hperm : (perm random_state rows.length).Perm (List.range rows.length)) :
    (∀ d1 d2 : List α, d1 = d2 →
      trainTestSplit perm random_state d1 = trainTestSplit perm random_state d2) ∧
    (trainTestSplit perm random_state rows).2.length = (rows.length + 4) / 5 ∧
    (trainTestSplit perm random_state rows).1.length =
      rows.length - (rows.length + 4) / 5 ∧
    ((trainTestSplit perm random_state rows).1 ++
      (trainTestSplit perm random_state rows).2).Perm rows := by
  have hlen : (perm random_state rows.length).length = rows.length :=
    hperm.length_eq.trans (List.length_range _)
  have hmem : ∀ i ∈ perm random_state rows.length, i < rows.length := by
    intro i hi
    exact List.mem_range.mp (hperm.mem_iff.mp hi)
  have hntle : (rows.length + 4) / 5 ≤ rows.length := by omega
  refine ⟨fun d1 d2 h => by rw [h], ?_, ?_, ?_⟩
  · rw [trainTestSplit_def]
    rw [filterMap_getElem?_length rows _
      (fun i hi => hmem i (List.mem_of_mem_take hi))]
    rw [List.length_take, hlen]
    exact Nat.min_eq_left hntle
  · rw [trainTestSplit_def]
    rw [filterMap_getElem?_length rows _
      (fun i hi => hmem i (List.mem_of_mem_drop hi))]
    rw [List.length_drop, hlen]
  · rw [trainTestSplit_def]
    have h0 := List.take_append_drop ((rows.length + 4) / 5)
      (perm random_state rows.length)
    have h2 : ((perm random_state rows.length).drop ((rows.length + 4) / 5) ++
        (perm random_state rows.length).take ((rows.length + 4) / 5)).Perm
        ((perm random_state rows.length).take ((rows.length + 4) / 5) ++
         (perm random_state rows.length).drop ((rows.length + 4) / 5)) :=
      List.perm_append_comm
    have h1 : ((perm random_state rows.length).drop ((rows.length + 4) / 5) ++
        (perm random_state rows.length).take ((rows.length + 4) / 5)).Perm
        (perm random_state rows.length) := by
      rwa [h0] at h2
    have h3 := (h1.trans hperm).filterMap (fun i => rows[i]?)
    rw [List.filterMap_append] at h3
    rw [filterMap_getElem?_range rows] at h3
    exact h3

/-- Witness for C8 with the identity shuffler and a three-row input:
ceil(0.2·3) = 1 row is set aside for validation. -/
theorem c8_split_deterministic_witness :
    (∀ d1 d2 : List ℕ, d1 = d2 →
      trainTestSplit (fun _ n => List.range n) random_state d1 =
        trainTestSplit (fun _ n => List.range n) random_state d2) ∧
    (trainTestSplit (fun _ n => List.range n) random_state [10, 20, 30]).2.length =
      (([10, 20, 30] : List ℕ).length + 4) / 5 ∧
    (trainTestSplit (fun _ n => List.range n) random_state [10, 20, 30]).1.length =
      ([10, 20, 30] : List ℕ).length - (([10, 20, 30] : List ℕ).length + 4) / 5 ∧
    ((trainTestSplit (fun _ n => List.range n) random_state [10, 20, 30]).1 ++
      (trainTestSplit (fun _ n => List.range n) random_state [10, 20, 30]).2).Perm
      [10, 20, 30] :=
  c8_split_deterministic (fun _ n => List.range n) [10, 20, 30] (List.Perm.refl _)
